import Mathlib

/-!
Shallow embedding of `src/c/ch11/solns/both1d.c`, a 1D advection-diffusion
residual/Jacobian assembler on a distributed structured grid.

Modelling conventions:
* `PetscReal` is embedded as `ℚ` (exact arithmetic; the C program's algebra
  is rational in its inputs).
* The haloed local solution array `au` is a total function `ℤ → ℚ`; the C
  code's guards ensure only in-range indices are ever read, so the extra
  domain is inert.
* `DMDALocalInfo` keeps the three fields the kernel reads: `mx` (global
  point count), `xs` (first owned index), `xm` (number of owned points).
* The wind function `wind_a` is a parameter `a_fn` of the evaluators
  (the C code calls the global `wind_a`, defined below; the spec requires
  the interface to support non-constant speed, and claims about zero wind
  instantiate `a_fn` differently).
* The limiter function pointers `limiterptr[] = {NULL, &centered, &vanleer}`
  are embedded as `limiterFn : LimiterType → Option (ℚ → ℚ)`.
* The sequential accumulation loops become `List.foldl` over the exact
  index ranges of the C `for` loops; `MatSetValues(..., ADD_VALUES)` becomes
  pointwise addition on a matrix `ℤ → ℤ → ℚ`; `MatZeroEntries` starts the
  assembly from the zero matrix.
* `SETERRQ` early returns become an `Except String Unit` status paired with
  the (possibly unmodified) output state.
-/

namespace Both1d

/-- `typedef enum {NONE, CENTERED, VANLEER} LimiterType;` -/
inductive LimiterType where
  | NONE
  | CENTERED
  | VANLEER
deriving DecidableEq, Repr

open LimiterType

/-- `static PetscReal centered(PetscReal theta) { return 0.5; }` -/
def centered (_theta : ℚ) : ℚ := 1/2

/-- `static PetscReal vanleer(PetscReal theta)`:
`0.5 * (theta + abstheta) / (1.0 + abstheta)` with `abstheta = |theta|`. -/
def vanleer (theta : ℚ) : ℚ :=
  (1/2) * (theta + |theta|) / (1 + |theta|)

/-- `static void* limiterptr[] = {NULL, &centered, &vanleer};` -/
def limiterFn : LimiterType → Option (ℚ → ℚ)
  | NONE => Option.none
  | CENTERED => Option.some centered
  | VANLEER => Option.some vanleer

/-- `static PetscReal wind_a(PetscReal x) { return 1.0; }` -/
def wind_a (_x : ℚ) : ℚ := 1

/-- The fields of `DMDALocalInfo` read by the kernel: global point count
`mx`, owned-range start `xs`, owned-range length `xm`. -/
structure DMDALocalInfo where
  mx : ℤ
  xs : ℤ
  xm : ℤ

/-- `hx = 2.0 / (info->mx - 1)` -/
def hx (mx : ℤ) : ℚ := 2 / ((mx : ℚ) - 1)

/-- `scdiag = (2.0 * eps) / hx + 1.0` -/
def scdiag (mx : ℤ) (eps : ℚ) : ℚ := (2 * eps) / hx mx + 1

/-- Loop body of the cell-centered pass of `FormFunctionLocal`
(both1d.c lines 161-172): boundary rows get `scdiag * (u - bc)`, interior
rows get `-eps * uxx * hx` with Dirichlet substitution of the neighbors
adjacent to the boundary. -/
def cellResidual (mx : ℤ) (eps : ℚ) (au : ℤ → ℚ) (i : ℤ) : ℚ :=
  if i = 0 then
    scdiag mx eps * (au i - 1)
  else if i = mx - 1 then
    scdiag mx eps * (au i - 0)
  else
    let uW : ℚ := if i = 1 then 1 else au (i-1)
    let uE : ℚ := if i = mx - 2 then 0 else au (i+1)
    let uxx : ℚ := (uW - 2 * au i + uE) / (hx mx * hx mx);
    -eps * uxx * hx mx

/-- Wind speed at the E face center of cell `i`:
`a = wind_a(x + halfx)` with `x = -1.0 + i*hx`, `halfx = hx/2`. -/
def faceWind (mx : ℤ) (a_fn : ℚ → ℚ) (i : ℤ) : ℚ :=
  a_fn (-1 + (i : ℚ) * hx mx + hx mx / 2)

/-- First-order upwind value at face `i` (both1d.c lines 186-198). -/
def u_up (mx : ℤ) (a_fn : ℚ → ℚ) (au : ℤ → ℚ) (i : ℤ) : ℚ :=
  if 0 ≤ faceWind mx a_fn i then
    (if i = 0 then 1 else au i)
  else
    (if i + 1 = mx - 1 then 0 else au (i+1))

/-- Downwind value at face `i` (both1d.c lines 202-205). -/
def u_dn (mx : ℤ) (a_fn : ℚ → ℚ) (au : ℤ → ℚ) (i : ℤ) : ℚ :=
  if 0 ≤ faceWind mx a_fn i then
    (if i + 1 < mx - 1 then au (i+1) else 0)
  else
    au i

/-- Value one cell further upstream than the upwind value
(both1d.c lines 207-210). -/
def u_far (mx : ℤ) (a_fn : ℚ → ℚ) (au : ℤ → ℚ) (i : ℤ) : ℚ :=
  if 0 ≤ faceWind mx a_fn i then
    (if i - 1 > 0 then au (i-1) else 1)
  else
    (if i + 2 < mx - 1 then au (i+2) else 0)

/-- Flux at the E face of cell `i` (both1d.c lines 183-214): first-order
upwind flux `a * u_up`, plus, when a limiter is configured and
`u_dn ≠ u_up`, the high-order correction `a * psi(theta) * (u_dn - u_up)`
with `theta = (u_up - u_far) / (u_dn - u_up)`. -/
def faceFlux (mx : ℤ) (lim : LimiterType) (a_fn : ℚ → ℚ) (au : ℤ → ℚ)
    (i : ℤ) : ℚ :=
  let a := faceWind mx a_fn i
  let flux := a * u_up mx a_fn au i
  match limiterFn lim with
  | Option.none => flux
  | Option.some psi =>
      if u_dn mx a_fn au i = u_up mx a_fn au i then flux
      else
        let theta := (u_up mx a_fn au i - u_far mx a_fn au i) /
                     (u_dn mx a_fn au i - u_up mx a_fn au i);
        flux + a * psi theta * (u_dn mx a_fn au i - u_up mx a_fn au i)

/-- Division instrumented to detect a zero denominator. -/
def checkedDiv (p q : ℚ) : Option ℚ :=
  if q = 0 then Option.none else Option.some (p / q)

/-- `faceFlux` with the division defining `theta` instrumented by
`checkedDiv`: returns `none` exactly if the flux computation would divide
by zero. -/
def faceFluxChecked (mx : ℤ) (lim : LimiterType) (a_fn : ℚ → ℚ)
    (au : ℤ → ℚ) (i : ℤ) : Option ℚ :=
  let a := faceWind mx a_fn i
  let flux := a * u_up mx a_fn au i
  match limiterFn lim with
  | Option.none => Option.some flux
  | Option.some psi =>
      if u_dn mx a_fn au i = u_up mx a_fn au i then Option.some flux
      else
        (checkedDiv (u_up mx a_fn au i - u_far mx a_fn au i)
            (u_dn mx a_fn au i - u_up mx a_fn au i)).map
          (fun theta =>
            flux + a * psi theta * (u_dn mx a_fn au i - u_up mx a_fn au i))

/-- The owned index range `i = xs, ..., xs+xm-1` of the cell-centered loop. -/
def ownedList (info : DMDALocalInfo) : List ℤ :=
  (List.range info.xm.toNat).map (fun k : ℕ => info.xs + (k : ℤ))

/-- The face loop range `i = xs-1, ..., xs+xm-1` (both1d.c line 177):
one extra face at the left to cover W faces on ownership boundaries. -/
def faceList (info : DMDALocalInfo) : List ℤ :=
  (List.range (info.xm.toNat + 1)).map (fun k : ℕ => info.xs - 1 + (k : ℤ))

/-- One iteration of the face loop of `FormFunctionLocal`
(both1d.c lines 177-221): skip faces outside the domain or at the right
boundary; accumulate `+flux` into owned non-boundary cell `i` and `-flux`
into owned non-boundary cell `i+1`. -/
def applyFace (info : DMDALocalInfo) (lim : LimiterType) (a_fn : ℚ → ℚ)
    (au : ℤ → ℚ) (aF : ℤ → ℚ) (i : ℤ) : ℤ → ℚ :=
  if i < 0 ∨ i = info.mx - 1 then aF
  else
    let flux := faceFlux info.mx lim a_fn au i
    let aF1 := if 0 < i ∧ info.xs ≤ i then
                 Function.update aF i (aF i + flux)
               else aF
    if i + 1 < info.mx - 1 ∧ i + 1 < info.xs + info.xm then
      Function.update aF1 (i+1) (aF1 (i+1) - flux)
    else aF1

/-- `FormFunctionLocal` (both1d.c lines 150-223): the cell-centered pass
writes each owned residual entry, then the face-centered pass accumulates
advective fluxes. Indices outside the owned range are left at 0. -/
def FormFunctionLocal (info : DMDALocalInfo) (lim : LimiterType)
    (a_fn : ℚ → ℚ) (eps : ℚ) (au : ℤ → ℚ) : ℤ → ℚ :=
  let pass1 := (ownedList info).foldl
    (fun aF i => Function.update aF i (cellResidual info.mx eps au i))
    (fun _ => 0);
  (faceList info).foldl (applyFace info lim a_fn au) pass1

/-- `MatSetValues(P, 1, &r, 1, &c, &v, ADD_VALUES)` on a dense view of the
sparse matrix. -/
def matAdd (M : ℤ → ℤ → ℚ) (r c : ℤ) (v : ℚ) : ℤ → ℤ → ℚ :=
  fun r' c' => if r' = r ∧ c' = c then M r' c' + v else M r' c'

/-- Diffusive entries of an interior Jacobian row (both1d.c lines
246-253): tridiagonal Laplacian scaled by `eps/hx`, zeroed against
Dirichlet neighbor columns. -/
def jacDiff (mx : ℤ) (eps : ℚ) (M : ℤ → ℤ → ℚ) (i : ℤ) : ℤ → ℤ → ℚ :=
  matAdd (matAdd (matAdd M i i ((2 * eps) / hx mx))
    i (i-1) (if i - 1 > 0 then -eps / hx mx else 0))
    i (i+1) (if i + 1 < mx - 1 then -eps / hx mx else 0)

/-- Zeroth-order upwind entry from the E face of cell `i`
(both1d.c lines 258-264). -/
def jacUpE (mx : ℤ) (a_fn : ℚ → ℚ) (M : ℤ → ℤ → ℚ) (i : ℤ) : ℤ → ℤ → ℚ :=
  let aE := faceWind mx a_fn i;
  if 0 ≤ aE then matAdd M i i aE
  else matAdd M i (i+1) (if i + 1 < mx - 1 then aE else 0)

/-- Zeroth-order upwind entry from the W face of cell `i`
(both1d.c lines 265-271). -/
def jacUpW (mx : ℤ) (a_fn : ℚ → ℚ) (M : ℤ → ℤ → ℚ) (i : ℤ) : ℤ → ℤ → ℚ :=
  let aW := faceWind mx a_fn (i-1);
  if 0 ≤ aW then matAdd M i (i-1) (if i - 1 > 0 then -aW else 0)
  else matAdd M i i (-aW)

/-- Centered-limiter correction entries from the E face
(both1d.c lines 274-283). -/
def jacCentE (mx : ℤ) (a_fn : ℚ → ℚ) (M : ℤ → ℤ → ℚ) (i : ℤ) : ℤ → ℤ → ℚ :=
  let aE := faceWind mx a_fn i;
  if 0 ≤ aE then
    matAdd (matAdd M i (i+1) (if i + 1 < mx - 1 then aE/2 else 0)) i i (-aE/2)
  else
    matAdd (matAdd M i (i+1) (if i + 1 < mx - 1 then -aE/2 else 0)) i i (aE/2)

/-- Centered-limiter correction entries from the W face
(both1d.c lines 284-293). -/
def jacCentW (mx : ℤ) (a_fn : ℚ → ℚ) (M : ℤ → ℤ → ℚ) (i : ℤ) : ℤ → ℤ → ℚ :=
  let aW := faceWind mx a_fn (i-1);
  if 0 ≤ aW then
    matAdd (matAdd M i i (-aW/2)) i (i-1) (if i - 1 > 0 then aW/2 else 0)
  else
    matAdd (matAdd M i i (aW/2)) i (i-1) (if i - 1 > 0 then -aW/2 else 0)

/-- One row of Jacobian assembly, the body of the loop in
`FormJacobianLocal` (both1d.c lines 241-296): boundary rows get `scdiag`
on the diagonal; interior rows get the diffusive tridiagonal entries, the
zeroth-order upwind advective entries from the two adjacent faces, and,
when the Jacobian-side limiter is `centered`, the symmetric `±a/2`
correction entries; the stages are the consecutive `MatSetValues` blocks
of the source. -/
def jacRow (mx : ℤ) (jlim : LimiterType) (a_fn : ℚ → ℚ) (eps : ℚ)
    (M : ℤ → ℤ → ℚ) (i : ℤ) : ℤ → ℤ → ℚ :=
  if i = 0 ∨ i = mx - 1 then
    matAdd M i i (scdiag mx eps)
  else
    let M3 := jacUpW mx a_fn (jacUpE mx a_fn (jacDiff mx eps M i) i) i;
    if jlim = CENTERED then jacCentW mx a_fn (jacCentE mx a_fn M3 i) i
    else M3

/-- `FormJacobianLocal` (both1d.c lines 225-304): fails before touching
the matrix if the Jacobian-side limiter is van Leer
(`usr->jac_limiter_fcn == &vanleer`); otherwise zeroes the matrix and
assembles every owned row. The trial solution parameter `au` mirrors the
C signature (`PetscReal *u`) and is never read by the body. Returns the
error status together with the output state of the matrix argument. -/
def FormJacobianLocal (info : DMDALocalInfo) (jlim : LimiterType)
    (a_fn : ℚ → ℚ) (eps : ℚ) (au : ℤ → ℚ) (P : ℤ → ℤ → ℚ) :
    Except String Unit × (ℤ → ℤ → ℚ) :=
  if jlim = VANLEER then
    (Except.error "Jacobian for vanleer limiter is not implemented", P)
  else
    (Except.ok (),
     (ownedList info).foldl (jacRow info.mx jlim a_fn eps) (fun _ _ => 0))

/-- Modelled from the spec: the grid-setup layer (PETSc `DMDACreate1d` /
`DMSetUp`, excluded from the kernel sources) as specified in spec §4.1 and
§7: "Fails with DegenerateGrid if N<2", otherwise establishes the uniform
grid on `[-1,1]` with spacing `h = 2/(N-1)`. -/
structure Grid where
  N : ℤ
  h : ℚ
deriving DecidableEq, Repr

/-- Modelled from the spec: grid setup, failing with `DegenerateGrid`
when `N < 2` and otherwise succeeding with spacing `2/(N-1)`. -/
def setupGrid (N : ℤ) : Except String Grid :=
  if N < 2 then Except.error "DegenerateGrid"
  else Except.ok ⟨N, 2 / ((N : ℚ) - 1)⟩

/-! ### Proof-layer bookkeeping

The sequential accumulation loops are analyzed pointwise: each loop
iteration touches at most two residual entries (or one matrix row), so the
folds collapse to closed per-index formulas. -/

@[simp] theorem mk_mx (a b c : ℤ) : (DMDALocalInfo.mk a b c).mx = a := rfl

@[simp] theorem mk_xs (a b c : ℤ) : (DMDALocalInfo.mk a b c).xs = b := rfl

@[simp] theorem mk_xm (a b c : ℤ) : (DMDALocalInfo.mk a b c).xm = c := rfl

/-- Pointwise contribution of iteration `i` of the face loop to residual
entry `j` (proof-layer reformulation of `applyFace`). -/
def faceContrib (info : DMDALocalInfo) (lim : LimiterType) (a_fn : ℚ → ℚ)
    (au : ℤ → ℚ) (i j : ℤ) : ℚ :=
  if i < 0 ∨ i = info.mx - 1 then 0
  else
    (if j = i ∧ (0 < i ∧ info.xs ≤ i) then faceFlux info.mx lim a_fn au i
     else 0)
    - (if j = i + 1 ∧ (i + 1 < info.mx - 1 ∧ i + 1 < info.xs + info.xm)
       then faceFlux info.mx lim a_fn au i else 0)

theorem mem_progList (s : ℤ) (n : ℕ) (j : ℤ) :
    j ∈ (List.range n).map (fun k : ℕ => s + (k : ℤ)) ↔
      s ≤ j ∧ j < s + (n : ℤ) := by
  constructor
  · intro h
    rcases List.mem_map.mp h with ⟨k, hk, rfl⟩
    have hk' : k < n := List.mem_range.mp hk
    omega
  · rintro ⟨h1, h2⟩
    exact List.mem_map.mpr
      ⟨(j - s).toNat, List.mem_range.mpr (by omega), by omega⟩

theorem writeFold_apply (c : ℤ → ℚ) (L : List ℤ) (g : ℤ → ℚ) (j : ℤ) :
    (L.foldl (fun aF i => Function.update aF i (c i)) g) j
      = if j ∈ L then c j else g j := by
  induction L generalizing g with
  | nil => simp
  | cons a L ih =>
    simp only [List.foldl_cons, ih, List.mem_cons]
    by_cases hj : j ∈ L
    · simp [hj]
    · by_cases hja : j = a
      · subst hja
        simp [hj, Function.update_apply]
      · simp [hj, hja, Function.update_apply]

theorem sum_twoPoint (f : ℤ → ℚ) (s j : ℤ) (n : ℕ)
    (hf : ∀ i, i ≠ j → i ≠ j - 1 → f i = 0) :
    ((List.range n).map (fun k : ℕ => f (s + (k : ℤ)))).sum
      = (if s ≤ j ∧ j < s + (n : ℤ) then f j else 0)
        + (if s ≤ j - 1 ∧ j - 1 < s + (n : ℤ) then f (j-1) else 0) := by
  induction n with
  | zero =>
    simp only [List.range_zero, List.map_nil, List.sum_nil, Nat.cast_zero,
      add_zero]
    rw [if_neg (by omega), if_neg (by omega)]
    ring
  | succ n ih =>
    rw [List.range_succ, List.map_append, List.sum_append]
    simp only [List.map_cons, List.map_nil, List.sum_cons, List.sum_nil,
      add_zero]
    rw [ih]
    split_ifs <;>
      first
        | omega
        | (rw [hf (s + (n : ℤ)) (by omega) (by omega)]; ring1)
        | (rw [show s + (n : ℤ) = j from by omega]; ring1)
        | (rw [show s + (n : ℤ) = j - 1 from by omega]; ring1)

theorem applyFace_apply (info : DMDALocalInfo) (lim : LimiterType)
    (a_fn : ℚ → ℚ) (au : ℤ → ℚ) (aF : ℤ → ℚ) (i j : ℤ) :
    applyFace info lim a_fn au aF i j
      = aF j + faceContrib info lim a_fn au i j := by
  unfold applyFace faceContrib
  by_cases h0 : i < 0 ∨ i = info.mx - 1
  · simp [h0]
  · rw [if_neg h0, if_neg h0]
    split_ifs <;>
      (try simp only [Function.update_apply]) <;>
      (try split_ifs) <;>
      first | ring1 | omega | (simp_all only []; ring1)

theorem foldFace_apply (info : DMDALocalInfo) (lim : LimiterType)
    (a_fn : ℚ → ℚ) (au : ℤ → ℚ) (L : List ℤ) (g : ℤ → ℚ) (j : ℤ) :
    (L.foldl (applyFace info lim a_fn au) g) j
      = g j + (L.map (fun i => faceContrib info lim a_fn au i j)).sum := by
  induction L generalizing g with
  | nil => simp
  | cons a L ih =>
    simp only [List.foldl_cons, List.map_cons, List.sum_cons, ih,
      applyFace_apply]
    ring

/-- Closed per-index form of the residual evaluator: an owned index gets
its cell-centered value plus, when it is an interior point, the difference
of the fluxes at its E and W faces; a non-owned index stays 0. -/
theorem FormFunctionLocal_apply (info : DMDALocalInfo) (lim : LimiterType)
    (a_fn : ℚ → ℚ) (eps : ℚ) (au : ℤ → ℚ) (j : ℤ)
    (hxs : 0 ≤ info.xs) (hxm : 0 ≤ info.xm)
    (hsum : info.xs + info.xm ≤ info.mx) :
    FormFunctionLocal info lim a_fn eps au j =
      if info.xs ≤ j ∧ j < info.xs + info.xm then
        cellResidual info.mx eps au j +
          (if 0 < j ∧ j < info.mx - 1 then
             faceFlux info.mx lim a_fn au j
               - faceFlux info.mx lim a_fn au (j-1)
           else 0)
      else 0 := by
  unfold FormFunctionLocal ownedList faceList
  obtain ⟨m, hm⟩ : ∃ m : ℕ, info.xm = (m : ℤ) := ⟨info.xm.toNat, by omega⟩
  rw [hm, Int.toNat_natCast]
  rw [foldFace_apply, writeFold_apply]
  simp only [mem_progList, List.map_map, Function.comp_def]
  rw [sum_twoPoint (fun i => faceContrib info lim a_fn au i j)
    (info.xs - 1) j (m + 1)
    (by
      intro i hi hi'
      show faceContrib info lim a_fn au i j = 0
      unfold faceContrib
      split_ifs <;> first | rfl | omega | ring1)]
  push_cast
  have hsum' : info.xs + (m : ℤ) ≤ info.mx := by omega
  by_cases hown : info.xs ≤ j ∧ j < info.xs + (m : ℤ)
  · rw [if_pos hown]
    unfold faceContrib
    split_ifs <;> first | ring1 | omega | (exfalso; omega)
  · rw [if_neg hown]
    unfold faceContrib
    split_ifs <;> first | ring1 | omega | (exfalso; omega)

theorem matAdd_apply (M : ℤ → ℤ → ℚ) (r0 c0 : ℤ) (v : ℚ) (r c : ℤ) :
    matAdd M r0 c0 v r c = M r c + (if r = r0 ∧ c = c0 then v else 0) := by
  unfold matAdd
  split_ifs <;> ring

theorem jacDiff_other (mx : ℤ) (eps : ℚ) (M : ℤ → ℤ → ℚ) (i r c : ℤ)
    (hri : r ≠ i) : jacDiff mx eps M i r c = M r c := by
  unfold jacDiff matAdd
  simp [hri]

theorem jacUpE_other (mx : ℤ) (a_fn : ℚ → ℚ) (M : ℤ → ℤ → ℚ) (i r c : ℤ)
    (hri : r ≠ i) : jacUpE mx a_fn M i r c = M r c := by
  unfold jacUpE matAdd
  by_cases h : 0 ≤ faceWind mx a_fn i <;> simp [h, hri]

theorem jacUpW_other (mx : ℤ) (a_fn : ℚ → ℚ) (M : ℤ → ℤ → ℚ) (i r c : ℤ)
    (hri : r ≠ i) : jacUpW mx a_fn M i r c = M r c := by
  unfold jacUpW matAdd
  by_cases h : 0 ≤ faceWind mx a_fn (i-1) <;> simp [h, hri]

theorem jacCentE_other (mx : ℤ) (a_fn : ℚ → ℚ) (M : ℤ → ℤ → ℚ) (i r c : ℤ)
    (hri : r ≠ i) : jacCentE mx a_fn M i r c = M r c := by
  unfold jacCentE matAdd
  by_cases h : 0 ≤ faceWind mx a_fn i <;> simp [h, hri]

theorem jacCentW_other (mx : ℤ) (a_fn : ℚ → ℚ) (M : ℤ → ℤ → ℚ) (i r c : ℤ)
    (hri : r ≠ i) : jacCentW mx a_fn M i r c = M r c := by
  unfold jacCentW matAdd
  by_cases h : 0 ≤ faceWind mx a_fn (i-1) <;> simp [h, hri]

theorem jacRow_other (mx : ℤ) (jlim : LimiterType) (a_fn : ℚ → ℚ)
    (eps : ℚ) (M : ℤ → ℤ → ℚ) (i r c : ℤ) (hri : r ≠ i) :
    jacRow mx jlim a_fn eps M i r c = M r c := by
  have d1 : ∀ N : ℤ → ℤ → ℚ, jacDiff mx eps N i r c = N r c :=
    fun N => jacDiff_other mx eps N i r c hri
  have u1 : ∀ N : ℤ → ℤ → ℚ, jacUpE mx a_fn N i r c = N r c :=
    fun N => jacUpE_other mx a_fn N i r c hri
  have u2 : ∀ N : ℤ → ℤ → ℚ, jacUpW mx a_fn N i r c = N r c :=
    fun N => jacUpW_other mx a_fn N i r c hri
  have c1 : ∀ N : ℤ → ℤ → ℚ, jacCentE mx a_fn N i r c = N r c :=
    fun N => jacCentE_other mx a_fn N i r c hri
  have c2 : ∀ N : ℤ → ℤ → ℚ, jacCentW mx a_fn N i r c = N r c :=
    fun N => jacCentW_other mx a_fn N i r c hri
  unfold jacRow
  by_cases hb : i = 0 ∨ i = mx - 1
  · rw [if_pos hb]
    simp [matAdd_apply, hri]
  · rw [if_neg hb]
    simp only [ite_apply, c2, c1, u2, u1, d1, ite_self]

/-- Per-stage payload at row `i`: each stage adds to `M i c` a value not
depending on `M`. -/
theorem jacDiff_row (mx : ℤ) (eps : ℚ) (M : ℤ → ℤ → ℚ) (i c : ℤ) :
    jacDiff mx eps M i i c
      = M i c + ((if c = i then (2 * eps) / hx mx else 0)
        + (if c = i - 1 then (if i - 1 > 0 then -eps / hx mx else 0) else 0)
        + (if c = i + 1 then (if i + 1 < mx - 1 then -eps / hx mx else 0)
           else 0)) := by
  unfold jacDiff
  simp only [matAdd_apply, eq_self_iff_true, true_and]
  split_ifs <;> first | ring1 | omega | (exfalso; omega)

theorem jacUpE_row (mx : ℤ) (a_fn : ℚ → ℚ) (M : ℤ → ℤ → ℚ) (i c : ℤ) :
    jacUpE mx a_fn M i i c
      = M i c + (if 0 ≤ faceWind mx a_fn i then
            (if c = i then faceWind mx a_fn i else 0)
          else
            (if c = i + 1 then
              (if i + 1 < mx - 1 then faceWind mx a_fn i else 0) else 0)) := by
  unfold jacUpE
  by_cases h : 0 ≤ faceWind mx a_fn i <;>
    simp only [h, if_true, if_false, matAdd_apply, eq_self_iff_true, true_and] <;>
    split_ifs <;> first | ring1 | omega | (exfalso; omega)

theorem jacUpW_row (mx : ℤ) (a_fn : ℚ → ℚ) (M : ℤ → ℤ → ℚ) (i c : ℤ) :
    jacUpW mx a_fn M i i c
      = M i c + (if 0 ≤ faceWind mx a_fn (i-1) then
            (if c = i - 1 then
              (if i - 1 > 0 then -faceWind mx a_fn (i-1) else 0) else 0)
          else
            (if c = i then -faceWind mx a_fn (i-1) else 0)) := by
  unfold jacUpW
  by_cases h : 0 ≤ faceWind mx a_fn (i-1) <;>
    simp only [h, if_true, if_false, matAdd_apply, eq_self_iff_true, true_and] <;>
    split_ifs <;> first | ring1 | omega | (exfalso; omega)

theorem jacCentE_row (mx : ℤ) (a_fn : ℚ → ℚ) (M : ℤ → ℤ → ℚ) (i c : ℤ) :
    jacCentE mx a_fn M i i c
      = M i c + (if 0 ≤ faceWind mx a_fn i then
            ((if c = i + 1 then
               (if i + 1 < mx - 1 then faceWind mx a_fn i / 2 else 0) else 0)
             + (if c = i then -faceWind mx a_fn i / 2 else 0))
          else
            ((if c = i + 1 then
               (if i + 1 < mx - 1 then -faceWind mx a_fn i / 2 else 0) else 0)
             + (if c = i then faceWind mx a_fn i / 2 else 0))) := by
  unfold jacCentE
  by_cases h : 0 ≤ faceWind mx a_fn i <;>
    simp only [h, if_true, if_false, matAdd_apply, eq_self_iff_true, true_and] <;>
    split_ifs <;> first | ring1 | omega | (exfalso; omega)

theorem jacCentW_row (mx : ℤ) (a_fn : ℚ → ℚ) (M : ℤ → ℤ → ℚ) (i c : ℤ) :
    jacCentW mx a_fn M i i c
      = M i c + (if 0 ≤ faceWind mx a_fn (i-1) then
            ((if c = i then -faceWind mx a_fn (i-1) / 2 else 0)
             + (if c = i - 1 then
               (if i - 1 > 0 then faceWind mx a_fn (i-1) / 2 else 0) else 0))
          else
            ((if c = i then faceWind mx a_fn (i-1) / 2 else 0)
             + (if c = i - 1 then
               (if i - 1 > 0 then -faceWind mx a_fn (i-1) / 2 else 0)
               else 0))) := by
  unfold jacCentW
  by_cases h : 0 ≤ faceWind mx a_fn (i-1) <;>
    simp only [h, if_true, if_false, matAdd_apply, eq_self_iff_true, true_and] <;>
    split_ifs <;> first | ring1 | omega | (exfalso; omega)

theorem jacRow_delta (mx : ℤ) (jlim : LimiterType) (a_fn : ℚ → ℚ)
    (eps : ℚ) (M : ℤ → ℤ → ℚ) (i r c : ℤ) :
    jacRow mx jlim a_fn eps M i r c
      = M r c + jacRow mx jlim a_fn eps (fun _ _ => 0) i r c := by
  by_cases hri : r = i
  · subst hri
    unfold jacRow
    by_cases hb : r = 0 ∨ r = mx - 1
    · rw [if_pos hb]
      rw [if_pos hb]
      simp only [matAdd_apply, eq_self_iff_true, true_and]
      split_ifs <;> ring1
    · rw [if_neg hb]
      rw [if_neg hb]
      simp only [ite_apply, jacCentW_row, jacCentE_row, jacUpW_row,
        jacUpE_row, jacDiff_row]
      split_ifs <;> ring1
  · rw [jacRow_other mx jlim a_fn eps M i r c hri,
      jacRow_other mx jlim a_fn eps (fun _ _ => 0) i r c hri]
    ring

theorem foldJac_apply (mx : ℤ) (jlim : LimiterType) (a_fn : ℚ → ℚ)
    (eps : ℚ) (L : List ℤ) (M : ℤ → ℤ → ℚ) (r c : ℤ) :
    (L.foldl (jacRow mx jlim a_fn eps) M) r c
      = M r c + (L.map
          (fun i => jacRow mx jlim a_fn eps (fun _ _ => 0) i r c)).sum := by
  induction L generalizing M with
  | nil => simp
  | cons a L ih =>
    simp only [List.foldl_cons, List.map_cons, List.sum_cons, ih]
    rw [jacRow_delta]
    ring

/-- Closed per-entry form of the assembled Jacobian: entry `(r, c)` is the
row-`r` contribution when `r` is owned, else 0. -/
theorem FormJacobianLocal_entry (info : DMDALocalInfo) (jlim : LimiterType)
    (a_fn : ℚ → ℚ) (eps : ℚ) (au : ℤ → ℚ) (P : ℤ → ℤ → ℚ) (r c : ℤ)
    (hvl : ¬ jlim = VANLEER) (hxm : 0 ≤ info.xm) :
    (FormJacobianLocal info jlim a_fn eps au P).2 r c
      = if info.xs ≤ r ∧ r < info.xs + info.xm then
          jacRow info.mx jlim a_fn eps (fun _ _ => 0) r r c
        else 0 := by
  unfold FormJacobianLocal ownedList
  rw [if_neg hvl]
  simp only
  obtain ⟨m, hm⟩ : ∃ m : ℕ, info.xm = (m : ℤ) := ⟨info.xm.toNat, by omega⟩
  rw [hm, Int.toNat_natCast]
  rw [foldJac_apply]
  simp only [List.map_map, Function.comp_def]
  rw [sum_twoPoint (fun i => jacRow info.mx jlim a_fn eps
      (fun _ _ => 0) i r c) info.xs r m
    (by
      intro i hi hi'
      show jacRow info.mx jlim a_fn eps (fun _ _ => 0) i r c = 0
      exact jacRow_other _ _ _ _ _ _ _ _ (Ne.symm hi))]
  rw [jacRow_other _ _ _ _ _ _ _ _ (by omega : r ≠ r - 1)]
  split_ifs <;> first | ring1 | omega | (exfalso; omega)

/-! ### Closed forms for the program's wind and the supported limiters -/

theorem hx_ne (mx : ℤ) (hmx : 2 ≤ mx) : hx mx ≠ 0 := by
  have h2 : (2 : ℚ) ≤ (mx : ℚ) := by exact_mod_cast hmx
  have : ((mx : ℚ) - 1) ≠ 0 := by linarith
  exact div_ne_zero two_ne_zero this

theorem faceFlux_none (mx : ℤ) (a_fn : ℚ → ℚ) (au : ℤ → ℚ) (i : ℤ) :
    faceFlux mx NONE a_fn au i
      = faceWind mx a_fn i * u_up mx a_fn au i := rfl

theorem faceFlux_limiter (mx : ℤ) (lim : LimiterType) (a_fn : ℚ → ℚ)
    (au : ℤ → ℚ) (i : ℤ) (psi : ℚ → ℚ)
    (h : limiterFn lim = Option.some psi) :
    faceFlux mx lim a_fn au i =
      if u_dn mx a_fn au i = u_up mx a_fn au i then
        faceWind mx a_fn i * u_up mx a_fn au i
      else
        faceWind mx a_fn i * u_up mx a_fn au i
          + faceWind mx a_fn i
            * psi ((u_up mx a_fn au i - u_far mx a_fn au i)
                / (u_dn mx a_fn au i - u_up mx a_fn au i))
            * (u_dn mx a_fn au i - u_up mx a_fn au i) := by
  unfold faceFlux
  rw [h]

theorem faceWind_wind_a (mx : ℤ) (i : ℤ) : faceWind mx wind_a i = 1 := rfl

theorem u_up_wind_a (mx : ℤ) (au : ℤ → ℚ) (i : ℤ) :
    u_up mx wind_a au i = if i = 0 then 1 else au i := by
  unfold u_up
  rw [if_pos]
  rw [faceWind_wind_a]
  norm_num

theorem u_dn_wind_a (mx : ℤ) (au : ℤ → ℚ) (i : ℤ) :
    u_dn mx wind_a au i = if i + 1 < mx - 1 then au (i+1) else 0 := by
  unfold u_dn
  rw [if_pos]
  rw [faceWind_wind_a]
  norm_num

theorem faceFlux_one_none (mx : ℤ) (au : ℤ → ℚ) (i : ℤ) :
    faceFlux mx NONE wind_a au i = if i = 0 then 1 else au i := by
  rw [faceFlux_none, faceWind_wind_a, u_up_wind_a, one_mul]

theorem faceFlux_one_centered (mx : ℤ) (au : ℤ → ℚ) (i : ℤ) :
    faceFlux mx CENTERED wind_a au i
      = ((if i = 0 then 1 else au i)
          + (if i + 1 < mx - 1 then au (i+1) else 0)) / 2 := by
  rw [faceFlux_limiter mx CENTERED wind_a au i centered rfl]
  rw [faceWind_wind_a]
  unfold centered
  by_cases h : u_dn mx wind_a au i = u_up mx wind_a au i
  · rw [if_pos h, ← u_up_wind_a mx au i, ← u_dn_wind_a mx au i, h]
    ring
  · rw [if_neg h, ← u_up_wind_a mx au i, ← u_dn_wind_a mx au i]
    ring

theorem faceFlux_zero_none (mx : ℤ) (au : ℤ → ℚ) (i : ℤ) :
    faceFlux mx NONE (fun _ => 0) au i = 0 := by
  rw [faceFlux_none]
  rw [show faceWind mx (fun _ => (0:ℚ)) i = 0 from rfl]
  ring

/-! ### Row values of the assembled Jacobian for the program's wind -/

theorem jacRow_boundary_val (mx : ℤ) (jlim : LimiterType) (a_fn : ℚ → ℚ)
    (eps : ℚ) (i c : ℤ) (hb : i = 0 ∨ i = mx - 1) :
    jacRow mx jlim a_fn eps (fun _ _ => 0) i i c
      = if c = i then scdiag mx eps else 0 := by
  unfold jacRow
  rw [if_pos hb]
  simp [matAdd_apply]

theorem jacRow_one_none (mx : ℤ) (eps : ℚ) (i c : ℤ)
    (hb : ¬ (i = 0 ∨ i = mx - 1)) :
    jacRow mx NONE wind_a eps (fun _ _ => 0) i i c
      = (if c = i then (2 * eps) / hx mx + 1 else 0)
        + (if c = i - 1 then
            (if i - 1 > 0 then -eps / hx mx - 1 else 0) else 0)
        + (if c = i + 1 then
            (if i + 1 < mx - 1 then -eps / hx mx else 0) else 0) := by
  unfold jacRow
  rw [if_neg hb]
  simp only [ite_apply]
  rw [if_neg (show ¬ (NONE = CENTERED) from by decide)]
  rw [jacUpW_row, jacUpE_row, jacDiff_row]
  simp only [faceWind_wind_a, show ((0:ℚ) ≤ 1) = True from by norm_num,
    if_true]
  split_ifs <;> first | ring1 | omega | (exfalso; omega)

theorem jacRow_one_centered (mx : ℤ) (eps : ℚ) (i c : ℤ)
    (hb : ¬ (i = 0 ∨ i = mx - 1)) :
    jacRow mx CENTERED wind_a eps (fun _ _ => 0) i i c
      = (if c = i then (2 * eps) / hx mx else 0)
        + (if c = i - 1 then
            (if i - 1 > 0 then -eps / hx mx - 1/2 else 0) else 0)
        + (if c = i + 1 then
            (if i + 1 < mx - 1 then -eps / hx mx + 1/2 else 0) else 0) := by
  unfold jacRow
  rw [if_neg hb]
  simp only [ite_apply]
  rw [if_pos trivial]
  rw [jacCentW_row, jacCentE_row, jacUpW_row, jacUpE_row, jacDiff_row]
  simp only [faceWind_wind_a, show ((0:ℚ) ≤ 1) = True from by norm_num,
    if_true]
  split_ifs <;> first | ring1 | omega | (exfalso; omega)

theorem jacRow_zero_none (mx : ℤ) (eps : ℚ) (i c : ℤ)
    (hb : ¬ (i = 0 ∨ i = mx - 1)) :
    jacRow mx NONE (fun _ => 0) eps (fun _ _ => 0) i i c
      = (if c = i then (2 * eps) / hx mx else 0)
        + (if c = i - 1 then
            (if i - 1 > 0 then -eps / hx mx else 0) else 0)
        + (if c = i + 1 then
            (if i + 1 < mx - 1 then -eps / hx mx else 0) else 0) := by
  unfold jacRow
  rw [if_neg hb]
  simp only [ite_apply]
  rw [if_neg (show ¬ (NONE = CENTERED) from by decide)]
  rw [jacUpW_row, jacUpE_row, jacDiff_row]
  simp only [show faceWind mx (fun _ => (0:ℚ)) i = 0 from rfl,
    show faceWind mx (fun _ => (0:ℚ)) (i-1) = 0 from rfl,
    show ((0:ℚ) ≤ 0) = True from by norm_num, if_true]
  split_ifs <;> first | ring1 | omega | (exfalso; omega)

/-- Boundary and interior closed forms of the cell-centered pass. -/
theorem cellResidual_left (mx : ℤ) (eps : ℚ) (au : ℤ → ℚ) :
    cellResidual mx eps au 0 = scdiag mx eps * (au 0 - 1) := by
  unfold cellResidual
  rw [if_pos rfl]

theorem cellResidual_right (mx : ℤ) (eps : ℚ) (au : ℤ → ℚ) (hmx : 2 ≤ mx) :
    cellResidual mx eps au (mx - 1)
      = scdiag mx eps * (au (mx - 1) - 0) := by
  unfold cellResidual
  rw [if_neg (by omega), if_pos rfl]

theorem cellResidual_interior (mx : ℤ) (eps : ℚ) (au : ℤ → ℚ) (i : ℤ)
    (hmx : 2 ≤ mx) (h1 : 0 < i) (h2 : i < mx - 1) :
    cellResidual mx eps au i
      = -eps * (((if i = 1 then 1 else au (i-1)) - 2 * au i
          + (if i = mx - 2 then 0 else au (i+1))) / hx mx) := by
  have hhx := hx_ne mx hmx
  unfold cellResidual
  rw [if_neg (by omega), if_neg (by omega)]
  field_simp
  ring

/-! ### Claim theorems -/

/-- C2: for every global grid size `N >= 2`, every contiguous owned range
`[xs, xs+xm)` inside `[0, N)` (a piece of any partition of `[0, N)` into
per-worker ranges), every limiter choice, every wind function and every
haloed trial solution, the residual a worker computes at each of its owned
indices equals the residual a single worker owning all of `[0, N)`
computes there: concatenating the per-worker pieces reproduces the global
residual exactly, with no face flux double-counted or dropped. -/
theorem C2_partition_residual_refinement (mx xs xm : ℤ) (lim : LimiterType)
    (a_fn : ℚ → ℚ) (eps : ℚ) (au : ℤ → ℚ) (j : ℤ)
    (hmx : 2 ≤ mx) (hxs : 0 ≤ xs) (hsum : xs + xm ≤ mx)
    (hj1 : xs ≤ j) (hj2 : j < xs + xm) :
    FormFunctionLocal ⟨mx, xs, xm⟩ lim a_fn eps au j
      = FormFunctionLocal ⟨mx, 0, mx⟩ lim a_fn eps au j := by
  rw [FormFunctionLocal_apply ⟨mx, xs, xm⟩ lim a_fn eps au j hxs
      (show (0:ℤ) ≤ xm from by omega) (show xs + xm ≤ mx from hsum),
    FormFunctionLocal_apply ⟨mx, 0, mx⟩ lim a_fn eps au j le_rfl
      (show (0:ℤ) ≤ mx from by omega) (show 0 + mx ≤ mx from by omega)]
  simp only [mk_mx, mk_xs, mk_xm]
  split_ifs <;> first | rfl | omega | (exfalso; omega)

/-- C2 witness at a concrete split of `[0,4)` into `[2,4)` owned by the
second worker. -/
theorem C2_partition_residual_refinement_witness :
    FormFunctionLocal ⟨4, 2, 2⟩ CENTERED wind_a (1/100)
        (fun j : ℤ => (j : ℚ)/10) 2
      = FormFunctionLocal ⟨4, 0, 4⟩ CENTERED wind_a (1/100)
        (fun j : ℤ => (j : ℚ)/10) 2 :=
  C2_partition_residual_refinement 4 2 2 CENTERED wind_a (1/100)
    (fun j : ℤ => (j : ℚ)/10) 2 (by decide) (by decide) (by decide)
    (by decide) (by decide)

/-- C3: for every limiter choice, every wind function and every trial
solution, an owned boundary row of the residual is exactly
`scdiag * (u_0 - 1)` on the left and `scdiag * (u_{N-1} - 0)` on the
right, with `scdiag = 2*eps/h + 1`; the face-centered pass never touches
these rows. -/
theorem C3_boundary_rows (mx xs xm : ℤ) (lim : LimiterType) (a_fn : ℚ → ℚ)
    (eps : ℚ) (au : ℤ → ℚ)
    (hmx : 2 ≤ mx) (hxs : 0 ≤ xs) (hxm : 0 ≤ xm) (hsum : xs + xm ≤ mx) :
    (xs = 0 → 0 < xm →
      FormFunctionLocal ⟨mx, xs, xm⟩ lim a_fn eps au 0
        = scdiag mx eps * (au 0 - 1))
    ∧ (xs ≤ mx - 1 → mx - 1 < xs + xm →
      FormFunctionLocal ⟨mx, xs, xm⟩ lim a_fn eps au (mx - 1)
        = scdiag mx eps * (au (mx - 1) - 0)) := by
  constructor
  · intro h1 h2
    rw [FormFunctionLocal_apply ⟨mx, xs, xm⟩ lim a_fn eps au 0 hxs hxm hsum]
    simp only [mk_mx, mk_xs, mk_xm]
    rw [if_pos (by omega), if_neg (by omega)]
    unfold cellResidual
    rw [if_pos rfl]
    ring
  · intro h1 h2
    rw [FormFunctionLocal_apply ⟨mx, xs, xm⟩ lim a_fn eps au (mx - 1) hxs
      hxm hsum]
    simp only [mk_mx, mk_xs, mk_xm]
    rw [if_pos (by omega), if_neg (by omega)]
    unfold cellResidual
    rw [if_neg (by omega), if_pos rfl]
    ring

/-- C3 witness on a concrete grid owning both boundary nodes. -/
theorem C3_boundary_rows_witness :
    FormFunctionLocal ⟨4, 0, 4⟩ VANLEER wind_a (1/100)
        (fun j : ℤ => (j : ℚ)/10) 0
      = scdiag 4 (1/100) * ((fun j : ℤ => (j : ℚ)/10) 0 - 1)
    ∧ FormFunctionLocal ⟨4, 0, 4⟩ VANLEER wind_a (1/100)
        (fun j : ℤ => (j : ℚ)/10) (4 - 1)
      = scdiag 4 (1/100) * ((fun j : ℤ => (j : ℚ)/10) (4 - 1) - 0) :=
  ⟨(C3_boundary_rows 4 0 4 VANLEER wind_a (1/100)
      (fun j : ℤ => (j : ℚ)/10) (by decide) (by decide) (by decide)
      (by decide)).1 rfl (by decide),
   (C3_boundary_rows 4 0 4 VANLEER wind_a (1/100)
      (fun j : ℤ => (j : ℚ)/10) (by decide) (by decide) (by decide)
      (by decide)).2 (by decide) (by decide)⟩

/-- C4: the Jacobian evaluator fails with the unsupported-operation error
exactly when van Leer is the Jacobian-side limiter, for every grid, wind,
diffusion coefficient and trial solution (the residual-side limiter is not
an input of the Jacobian evaluator, so the failure is independent of it). -/
theorem C4_vanleer_jacobian_unsupported (info : DMDALocalInfo)
    (jlim : LimiterType) (a_fn : ℚ → ℚ) (eps : ℚ) (au : ℤ → ℚ)
    (P : ℤ → ℤ → ℚ) :
    (FormJacobianLocal info jlim a_fn eps au P).1
        = Except.error "Jacobian for vanleer limiter is not implemented"
      ↔ jlim = VANLEER := by
  cases jlim <;> simp [FormJacobianLocal]

/-- C5 (spec-modelled): grid setup fails with `DegenerateGrid` exactly for
`N < 2` and succeeds with spacing `h = 2/(N-1)` for `N >= 2`. -/
theorem C5_grid_setup (N : ℤ) :
    (setupGrid N = Except.error "DegenerateGrid" ↔ N < 2)
    ∧ (2 ≤ N → setupGrid N = Except.ok ⟨N, 2 / ((N : ℚ) - 1)⟩) := by
  constructor
  · unfold setupGrid
    split_ifs with h <;> simp [h]
  · intro h
    unfold setupGrid
    rw [if_neg (by omega)]

/-- C5 witness: `N = 1` degenerates, `N = 5` succeeds. -/
theorem C5_grid_setup_witness :
    setupGrid 1 = Except.error "DegenerateGrid"
    ∧ setupGrid 5 = Except.ok ⟨5, 2 / (((5 : ℤ) : ℚ) - 1)⟩ :=
  ⟨(C5_grid_setup 1).1.mpr (by decide), (C5_grid_setup 5).2 (by decide)⟩

/-- C8: for every limiter choice and every face, the instrumented flux
computation never divides by zero (the `theta` division is only reached
when its denominator `u_dn - u_up` is nonzero), and whenever the downwind
value equals the upwind value the flux is exactly the first-order upwind
flux `a * u_up`. -/
theorem C8_equal_updown_guarded_flux (mx : ℤ) (lim : LimiterType)
    (a_fn : ℚ → ℚ) (au : ℤ → ℚ) (i : ℤ) :
    faceFluxChecked mx lim a_fn au i
        = Option.some (faceFlux mx lim a_fn au i)
    ∧ (u_dn mx a_fn au i = u_up mx a_fn au i →
        faceFlux mx lim a_fn au i
          = faceWind mx a_fn i * u_up mx a_fn au i) := by
  constructor
  · cases lim
    · rfl
    · by_cases h : u_dn mx a_fn au i = u_up mx a_fn au i
      · simp [faceFluxChecked, faceFlux, limiterFn, h]
      · simp [faceFluxChecked, faceFlux, limiterFn, checkedDiv, h,
          sub_ne_zero.mpr h]
    · by_cases h : u_dn mx a_fn au i = u_up mx a_fn au i
      · simp [faceFluxChecked, faceFlux, limiterFn, h]
      · simp [faceFluxChecked, faceFlux, limiterFn, checkedDiv, h,
          sub_ne_zero.mpr h]
  · intro h
    cases lim
    · rfl
    · rw [faceFlux_limiter mx CENTERED a_fn au i centered rfl, if_pos h]
    · rw [faceFlux_limiter mx VANLEER a_fn au i vanleer rfl, if_pos h]

/-- C8 witness at a constant trial solution, where downwind equals upwind
at every face. -/
theorem C8_equal_updown_guarded_flux_witness :
    faceFluxChecked 6 VANLEER wind_a (fun _ => 3) 2
        = Option.some (faceFlux 6 VANLEER wind_a (fun _ => 3) 2)
    ∧ faceFlux 6 VANLEER wind_a (fun _ => 3) 2
        = faceWind 6 wind_a 2 * u_up 6 wind_a (fun _ => 3) 2 :=
  ⟨(C8_equal_updown_guarded_flux 6 VANLEER wind_a (fun _ => 3) 2).1,
   (C8_equal_updown_guarded_flux 6 VANLEER wind_a (fun _ => 3) 2).2
     (by decide)⟩

/-- C9: for the supported Jacobian-side limiters (none, centered) the
assembled Jacobian is identical for any two trial solutions: the evaluator
never reads the trial solution. -/
theorem C9_jacobian_solution_independent (info : DMDALocalInfo)
    (jlim : LimiterType) (eps : ℚ) (au au' : ℤ → ℚ) (P : ℤ → ℤ → ℚ)
    (hmx : 2 ≤ info.mx) (heps : 0 < eps)
    (hlim : jlim = NONE ∨ jlim = CENTERED) :
    (FormJacobianLocal info jlim wind_a eps au P).2
      = (FormJacobianLocal info jlim wind_a eps au' P).2 := rfl

/-- C9 witness at two concrete distinct trial solutions. -/
theorem C9_jacobian_solution_independent_witness :
    (FormJacobianLocal ⟨5, 0, 5⟩ CENTERED wind_a 1 (fun _ => 0)
        (fun _ _ => 0)).2
      = (FormJacobianLocal ⟨5, 0, 5⟩ CENTERED wind_a 1 (fun j => (j : ℚ))
        (fun _ _ => 0)).2 :=
  C9_jacobian_solution_independent ⟨5, 0, 5⟩ CENTERED 1 (fun _ => 0)
    (fun j => (j : ℚ)) (fun _ _ => 0) (by decide) (by decide) (Or.inr rfl)

/-- C10: when van Leer is the Jacobian-side limiter the evaluator returns
the unsupported-operation error and leaves the matrix argument exactly as
it was: the check precedes `MatZeroEntries` and every write. -/
theorem C10_failing_jacobian_mutates_no_state (info : DMDALocalInfo)
    (a_fn : ℚ → ℚ) (eps : ℚ) (au : ℤ → ℚ) (P : ℤ → ℤ → ℚ) :
    FormJacobianLocal info VANLEER a_fn eps au P
      = (Except.error "Jacobian for vanleer limiter is not implemented",
         P) := rfl

/-- C6 counterexample: at the boundary-adjacent interior cell `i = 1` of a
4-point grid with trial solution identically 0 and `eps = 1`, the
cell-centered pass contributes `-eps*(1 - 2u_1 + u_2)/h` (the Dirichlet
value 1 is substituted for the left neighbor), which differs from the
claimed `-eps*(u_0 - 2u_1 + u_2)/h` built from the trial values. -/
theorem C6_counterexample :
    ¬ (cellResidual 4 1 (fun _ => 0) 1
        = -1 * (((fun _ : ℤ => (0:ℚ)) 0 - 2 * (fun _ : ℤ => (0:ℚ)) 1
            + (fun _ : ℤ => (0:ℚ)) 2) / hx 4)) := by
  unfold cellResidual hx scdiag
  norm_num

/-- C6 (amended): for every interior cell `i`, the cell-centered pass
contributes `-eps*(uW - 2u_i + uE)/h` where `uW` is the trial value
`u_{i-1}` except at `i = 1`, where the Dirichlet value 1 is substituted,
and `uE` is `u_{i+1}` except at `i = N-2`, where 0 is substituted; at
interior cells not adjacent to the boundary this is exactly the claimed
`-eps*(u_{i-1} - 2u_i + u_{i+1})/h`. -/
theorem C6_cell_centered_contribution (mx : ℤ) (eps : ℚ) (au : ℤ → ℚ)
    (i : ℤ) (hmx : 2 ≤ mx) (h1 : 0 < i) (h2 : i < mx - 1) :
    cellResidual mx eps au i
      = -eps * (((if i = 1 then 1 else au (i-1)) - 2 * au i
          + (if i = mx - 2 then 0 else au (i+1))) / hx mx)
    ∧ (1 < i → i < mx - 2 →
        cellResidual mx eps au i
          = -eps * ((au (i-1) - 2 * au i + au (i+1)) / hx mx)) := by
  have base := cellResidual_interior mx eps au i hmx h1 h2
  refine ⟨base, fun ha hb => ?_⟩
  rw [base, if_neg (by omega), if_neg (by omega)]

/-- C6 witness at a concrete interior cell away from the boundary. -/
theorem C6_cell_centered_contribution_witness :
    cellResidual 6 1 (fun j : ℤ => (j : ℚ)) 3
      = -1 * (((if (3:ℤ) = 1 then 1 else ((fun j : ℤ => (j : ℚ)) (3-1)))
          - 2 * ((fun j : ℤ => (j : ℚ)) 3)
          + (if (3:ℤ) = 6 - 2 then 0 else ((fun j : ℤ => (j : ℚ)) (3+1))))
          / hx 6)
    ∧ cellResidual 6 1 (fun j : ℤ => (j : ℚ)) 3
      = -1 * ((((fun j : ℤ => (j : ℚ)) (3-1))
          - 2 * ((fun j : ℤ => (j : ℚ)) 3)
          + ((fun j : ℤ => (j : ℚ)) (3+1))) / hx 6) :=
  ⟨(C6_cell_centered_contribution 6 1 (fun j : ℤ => (j : ℚ)) 3 (by decide)
      (by decide) (by decide)).1,
   (C6_cell_centered_contribution 6 1 (fun j : ℤ => (j : ℚ)) 3 (by decide)
      (by decide) (by decide)).2 (by decide) (by decide)⟩

/-- C7 counterexample: with wind identically zero and limiter `none`, at
the boundary-adjacent interior point `i = 1` of a 4-point grid with trial
solution identically 0 and `eps = 1`, the residual is
`-eps*(1 - 0 + 0)/h = -3/2`, not the claimed centered second difference
`-eps*(u_0 - 2u_1 + u_2)/h = 0` built from the trial values. -/
theorem C7_counterexample :
    ¬ (FormFunctionLocal ⟨4, 0, 4⟩ NONE (fun _ => 0) 1 (fun _ => 0) 1
        = -1 * (((fun _ : ℤ => (0:ℚ)) 0 - 2 * (fun _ : ℤ => (0:ℚ)) 1
            + (fun _ : ℤ => (0:ℚ)) 2) / hx 4)) := by
  rw [FormFunctionLocal_apply ⟨4, 0, 4⟩ NONE (fun _ => 0) 1 (fun _ => 0) 1
    le_rfl (show (0:ℤ) ≤ 4 from by norm_num)
    (show (0:ℤ) + 4 ≤ 4 from by norm_num)]
  simp only [mk_mx, mk_xs, mk_xm]
  rw [if_pos (show (0:ℤ) ≤ 1 ∧ (1:ℤ) < 0 + 4 from by norm_num),
    if_pos (show (0:ℤ) < 1 ∧ (1:ℤ) < 4 - 1 from by norm_num)]
  simp only [faceFlux_zero_none]
  unfold cellResidual hx scdiag
  norm_num

/-- C7 (amended): with wind identically zero and limiter `none`, the
advection pass contributes nothing, so at every interior point not
adjacent to the boundary the residual equals the centered second
difference `-eps*(u_{i-1} - 2u_i + u_{i+1})/h`, and every assembled
Jacobian row not adjacent to the boundary is exactly the symmetric
tridiagonal Laplacian: `2*eps/h` on the diagonal, `-eps/h` on the two
off-diagonals and 0 elsewhere. (At boundary-adjacent interior points the
residual substitutes the Dirichlet values; see C6.) -/
theorem C7_pure_diffusion (mx : ℤ) (eps : ℚ) (au : ℤ → ℚ)
    (P : ℤ → ℤ → ℚ) (i c : ℤ) (h1 : 1 < i) (h2 : i < mx - 2) :
    FormFunctionLocal ⟨mx, 0, mx⟩ NONE (fun _ => 0) eps au i
      = -eps * ((au (i-1) - 2 * au i + au (i+1)) / hx mx)
    ∧ (FormJacobianLocal ⟨mx, 0, mx⟩ NONE (fun _ => 0) eps au P).2 i c
      = (if c = i then 2 * eps / hx mx
         else if c = i - 1 ∨ c = i + 1 then -eps / hx mx else 0) := by
  have hmx : 2 ≤ mx := by omega
  have hhx := hx_ne mx hmx
  constructor
  · rw [FormFunctionLocal_apply ⟨mx, 0, mx⟩ NONE (fun _ => 0) eps au i
      le_rfl (show (0:ℤ) ≤ mx from by omega)
      (show (0:ℤ) + mx ≤ mx from by omega)]
    simp only [mk_mx, mk_xs, mk_xm]
    rw [if_pos (by omega : (0:ℤ) ≤ i ∧ i < 0 + mx),
      if_pos (by omega : 0 < i ∧ i < mx - 1)]
    simp only [faceFlux_zero_none]
    unfold cellResidual
    rw [if_neg (by omega : ¬ i = 0), if_neg (by omega : ¬ i = mx - 1),
      if_neg (by omega : ¬ i = 1), if_neg (by omega : ¬ i = mx - 2)]
    field_simp
    ring
  · rw [FormJacobianLocal_entry ⟨mx, 0, mx⟩ NONE (fun _ => 0) eps au P i c
      (by decide) (show (0:ℤ) ≤ mx from by omega)]
    simp only [mk_mx, mk_xs, mk_xm]
    rw [if_pos (by omega : (0:ℤ) ≤ i ∧ i < 0 + mx)]
    rw [jacRow_zero_none mx eps i c (by omega)]
    split_ifs <;> first | ring1 | omega | (exfalso; omega)

/-- C7 witness at a concrete grid, interior row away from the boundary. -/
theorem C7_pure_diffusion_witness :
    FormFunctionLocal ⟨6, 0, 6⟩ NONE (fun _ => 0) 1 (fun j : ℤ => (j : ℚ)) 3
      = -1 * ((((fun j : ℤ => (j : ℚ)) (3-1))
          - 2 * ((fun j : ℤ => (j : ℚ)) 3)
          + ((fun j : ℤ => (j : ℚ)) (3+1))) / hx 6)
    ∧ (FormJacobianLocal ⟨6, 0, 6⟩ NONE (fun _ => 0) 1
        (fun j : ℤ => (j : ℚ)) (fun _ _ => 0)).2 3 2
      = (if (2:ℤ) = 3 then 2 * 1 / hx 6
         else if (2:ℤ) = 3 - 1 ∨ (2:ℤ) = 3 + 1 then -1 / hx 6 else 0) :=
  C7_pure_diffusion 6 1 (fun j : ℤ => (j : ℚ)) (fun _ _ => 0) 3 2
    (by decide) (by decide)

set_option maxHeartbeats 1600000 in
/-- C1: for every grid with `N >= 2`, every `eps > 0`, every haloed trial
solution and every perturbation `d` of coordinate `j`, when the same
supported limiter (none or centered) is used for the residual and the
Jacobian, the Jacobian evaluator succeeds and every entry `J[i][j]` is the
exact partial derivative of the residual: the residual is affine in the
trial solution and `F_i(u + d*e_j) - F_i(u) = J[i][j] * d` holds exactly,
for the program's wind `wind_a`. -/
theorem C1_jacobian_exact_derivative (mx : ℤ) (eps : ℚ) (lim : LimiterType)
    (au : ℤ → ℚ) (P : ℤ → ℤ → ℚ) (i j : ℤ) (d : ℚ)
    (hmx : 2 ≤ mx) (heps : 0 < eps) (hlim : lim = NONE ∨ lim = CENTERED) :
    (FormJacobianLocal ⟨mx, 0, mx⟩ lim wind_a eps au P).1 = Except.ok ()
    ∧ FormFunctionLocal ⟨mx, 0, mx⟩ lim wind_a eps
          (Function.update au j (au j + d)) i
        - FormFunctionLocal ⟨mx, 0, mx⟩ lim wind_a eps au i
      = (FormJacobianLocal ⟨mx, 0, mx⟩ lim wind_a eps au P).2 i j * d := by
  have hvl : ¬ lim = VANLEER := by
    rcases hlim with rfl | rfl <;> decide
  have hhx := hx_ne mx hmx
  refine ⟨?_, ?_⟩
  · unfold FormJacobianLocal
    rw [if_neg hvl]
  · rw [FormJacobianLocal_entry ⟨mx, 0, mx⟩ lim wind_a eps au P i j hvl
      (show (0:ℤ) ≤ mx from by omega)]
    rw [FormFunctionLocal_apply ⟨mx, 0, mx⟩ lim wind_a eps
        (Function.update au j (au j + d)) i le_rfl
        (show (0:ℤ) ≤ mx from by omega)
        (show (0:ℤ) + mx ≤ mx from by omega),
      FormFunctionLocal_apply ⟨mx, 0, mx⟩ lim wind_a eps au i le_rfl
        (show (0:ℤ) ≤ mx from by omega)
        (show (0:ℤ) + mx ≤ mx from by omega)]
    simp only [mk_mx, mk_xs, mk_xm]
    by_cases hio : (0:ℤ) ≤ i ∧ i < 0 + mx
    · rw [if_pos hio, if_pos hio, if_pos hio]
      by_cases hbd : i = 0 ∨ i = mx - 1
      · rw [if_neg (show ¬ (0 < i ∧ i < mx - 1) from by omega),
          if_neg (show ¬ (0 < i ∧ i < mx - 1) from by omega),
          jacRow_boundary_val mx lim wind_a eps i j hbd]
        rcases hbd with rfl | hb1
        · rw [cellResidual_left, cellResidual_left]
          simp only [Function.update_apply]
          by_cases hj : j = 0
          · subst hj
            split_ifs <;> first | ring1 | (exfalso; omega)
          · split_ifs <;> first | ring1 | (exfalso; omega)
        · subst hb1
          rw [cellResidual_right mx eps (Function.update au j (au j + d))
              hmx,
            cellResidual_right mx eps au hmx]
          simp only [Function.update_apply]
          by_cases hj : j = mx - 1
          · subst hj
            split_ifs <;> first | ring1 | (exfalso; omega)
          · split_ifs <;> first | ring1 | (exfalso; omega)
      · rw [if_pos (show 0 < i ∧ i < mx - 1 from by omega),
          if_pos (show 0 < i ∧ i < mx - 1 from by omega)]
        rw [cellResidual_interior mx eps (Function.update au j (au j + d)) i
            hmx (by omega) (by omega),
          cellResidual_interior mx eps au i hmx (by omega) (by omega)]
        rcases hlim with rfl | rfl
        · rw [jacRow_one_none mx eps i j hbd]
          simp only [faceFlux_one_none, Function.update_apply,
            sub_add_cancel]
          simp only [if_neg (show ¬ i = 0 from by omega)]
          by_cases hj1 : j = i - 1
          · subst hj1
            simp only [eq_self_iff_true, if_true,
              if_neg (show ¬ i = i - 1 from by omega),
              if_neg (show ¬ i + 1 = i - 1 from by omega),
              if_neg (show ¬ i - 1 = i from by omega),
              if_neg (show ¬ i - 1 = i + 1 from by omega)]
            split_ifs <;> first | ring1 | (exfalso; omega)
          · by_cases hj2 : i = j
            · subst hj2
              simp only [eq_self_iff_true, if_true,
                if_neg (show ¬ i - 1 = i from by omega),
                if_neg (show ¬ i + 1 = i from by omega),
                if_neg (show ¬ i = i - 1 from by omega),
                if_neg (show ¬ i = i + 1 from by omega)]
              split_ifs <;> first | ring1 | (exfalso; omega)
            · by_cases hj3 : j = i + 1
              · subst hj3
                simp only [eq_self_iff_true, if_true,
                  if_neg (show ¬ i - 1 = i + 1 from by omega),
                  if_neg (show ¬ i = i + 1 from by omega),
                  if_neg (show ¬ i + 1 = i from by omega),
                  if_neg (show ¬ i + 1 = i - 1 from by omega)]
                split_ifs <;> first | ring1 | (exfalso; omega)
              · simp only [if_neg (show ¬ i - 1 = j from by omega),
                  if_neg (show ¬ i = j from by omega),
                  if_neg (show ¬ i + 1 = j from by omega),
                  if_neg (show ¬ j = i from by omega),
                  if_neg (show ¬ j = i - 1 from by omega),
                  if_neg (show ¬ j = i + 1 from by omega)]
                split_ifs <;> first | ring1 | (exfalso; omega)
        · rw [jacRow_one_centered mx eps i j hbd]
          simp only [faceFlux_one_centered, Function.update_apply,
            sub_add_cancel]
          simp only [if_neg (show ¬ i = 0 from by omega),
            if_pos (show i < mx - 1 from by omega)]
          by_cases hj1 : j = i - 1
          · subst hj1
            simp only [eq_self_iff_true, if_true,
              if_neg (show ¬ i = i - 1 from by omega),
              if_neg (show ¬ i + 1 = i - 1 from by omega),
              if_neg (show ¬ i - 1 = i from by omega),
              if_neg (show ¬ i - 1 = i + 1 from by omega)]
            split_ifs <;> first | ring1 | (exfalso; omega)
          · by_cases hj2 : i = j
            · subst hj2
              simp only [eq_self_iff_true, if_true,
                if_neg (show ¬ i - 1 = i from by omega),
                if_neg (show ¬ i + 1 = i from by omega),
                if_neg (show ¬ i = i - 1 from by omega),
                if_neg (show ¬ i = i + 1 from by omega)]
              split_ifs <;> first | ring1 | (exfalso; omega)
            · by_cases hj3 : j = i + 1
              · subst hj3
                simp only [eq_self_iff_true, if_true,
                  if_neg (show ¬ i - 1 = i + 1 from by omega),
                  if_neg (show ¬ i = i + 1 from by omega),
                  if_neg (show ¬ i + 1 = i from by omega),
                  if_neg (show ¬ i + 1 = i - 1 from by omega)]
                split_ifs <;> first | ring1 | (exfalso; omega)
              · simp only [if_neg (show ¬ i - 1 = j from by omega),
                  if_neg (show ¬ i = j from by omega),
                  if_neg (show ¬ i + 1 = j from by omega),
                  if_neg (show ¬ j = i from by omega),
                  if_neg (show ¬ j = i - 1 from by omega),
                  if_neg (show ¬ j = i + 1 from by omega)]
                split_ifs <;> first | ring1 | (exfalso; omega)
    · rw [if_neg hio, if_neg hio, if_neg hio]
      ring

/-- C1 witness on a concrete 5-point grid with the centered limiter,
perturbing coordinate 3 and checking row 2. -/
theorem C1_jacobian_exact_derivative_witness :
    (FormJacobianLocal ⟨5, 0, 5⟩ CENTERED wind_a 1 (fun k : ℤ => (k : ℚ))
        (fun _ _ => 0)).1 = Except.ok ()
    ∧ FormFunctionLocal ⟨5, 0, 5⟩ CENTERED wind_a 1
          (Function.update (fun k : ℤ => (k : ℚ)) 3
            ((fun k : ℤ => (k : ℚ)) 3 + 7)) 2
        - FormFunctionLocal ⟨5, 0, 5⟩ CENTERED wind_a 1
          (fun k : ℤ => (k : ℚ)) 2
      = (FormJacobianLocal ⟨5, 0, 5⟩ CENTERED wind_a 1
          (fun k : ℤ => (k : ℚ)) (fun _ _ => 0)).2 2 3 * 7 :=
  C1_jacobian_exact_derivative 5 1 CENTERED (fun k : ℤ => (k : ℚ))
    (fun _ _ => 0) 2 3 7 (by decide) (by decide) (Or.inr rfl)

end Both1d
